import Mathlib

/-!
Verification development for the kalshi-cpp client SDK.

Shallow embedding of the components the specification talks about:
* `Kalshi.Signer`        — `src/auth/signer.cpp` (canonical message + auth headers)
* `Kalshi.LiveView`      — `examples/live_market_view.hpp` (order-book reconstruction)
* `Kalshi.Ws`            — `src/ws/websocket.cpp` (subscribe commands, frame decoding)
* `Kalshi.Retry`         — `include/kalshi/retry.hpp` (retry classification and backoff)

C++ `std::map<K,V>` values are modelled as key-unique association lists
(`List (K × V)`); `std::map` iteration order only matters through
`rbegin`/`begin` (max/min key), which are modelled by explicit key scans.
Machine integers (`std::int32_t`, `std::int64_t`) are modelled as `Int`;
where wrap-around matters (the websocket digit accumulator) the reduction
modulo `2^32` is written out explicitly.
-/

namespace Kalshi

/-! ### Generic association-list maps (model of `std::map`) -/

/-- Lookup in an association list: value stored at key `k`, if present.
Models `std::map::find` / `count` on a key-unique map. -/
def lookupKV {α β : Type} [DecidableEq α] (k : α) : List (α × β) → Option β
  | [] => none
  | e :: rest => if e.1 = k then some e.2 else lookupKV k rest

/-- Store `v` at key `k`: replace the existing entry, or append a new one.
Models `std::map::operator[] = v` on a key-unique map. -/
def setKV {α β : Type} [DecidableEq α] (m : List (α × β)) (k : α) (v : β) : List (α × β) :=
  match m with
  | [] => [(k, v)]
  | e :: rest => if e.1 = k then (k, v) :: rest else e :: setKV rest k v

/-- Remove every entry at key `k`. On a key-unique map this is exactly
`std::map::erase(k)`. -/
def eraseKV {α β : Type} [DecidableEq α] (m : List (α × β)) (k : α) : List (α × β) :=
  m.filter (fun e => e.1 ≠ k)

/-- Entry with the greatest key, if the map is non-empty.
Models dereferencing `std::map::rbegin()` on a key-unique map. -/
def maxEntry? {β : Type} : List (Int × β) → Option (Int × β)
  | [] => none
  | e :: rest =>
    match maxEntry? rest with
    | none => some e
    | some e2 => if e2.1 > e.1 then some e2 else some e

/-- Entry with the least key, if the map is non-empty.
Models dereferencing `std::map::begin()` on a key-unique map. -/
def minEntry? {β : Type} : List (Int × β) → Option (Int × β)
  | [] => none
  | e :: rest =>
    match minEntry? rest with
    | none => some e
    | some e2 => if e2.1 < e.1 then some e2 else some e

/-! ### Data model shared by the websocket layer and the live market view
(`include/kalshi/websocket.hpp`, `include/kalshi/models/market.hpp`) -/

/-- `enum class Side { Yes, No }`. -/
inductive Side
  | yes
  | no
deriving DecidableEq, Repr

/-- `enum class Action { Buy, Sell }`. -/
inductive Action
  | buy
  | sell
deriving DecidableEq, Repr

/-- `struct OrderBookEntry` from `models/market.hpp`. -/
structure OrderBookEntry where
  price_cents : Int
  quantity : Int
deriving DecidableEq, Repr

/-- `struct OrderbookSnapshot` from `websocket.hpp`. -/
structure OrderbookSnapshot where
  sid : Int := 0
  seq : Int := 0
  market_ticker : String := ""
  yes : List OrderBookEntry := []
  no : List OrderBookEntry := []
deriving DecidableEq, Repr

/-- `struct OrderbookDelta` from `websocket.hpp`. -/
structure OrderbookDelta where
  sid : Int := 0
  seq : Int := 0
  market_ticker : String := ""
  price : Int := 0
  delta : Int := 0
  side : Side := Side.yes
deriving DecidableEq, Repr

/-- `struct WsTrade` from `websocket.hpp`. -/
structure WsTrade where
  sid : Int := 0
  trade_id : String := ""
  market_ticker : String := ""
  yes_price : Int := 0
  no_price : Int := 0
  count : Int := 0
  taker_side : Side := Side.yes
  timestamp : Int := 0
deriving DecidableEq, Repr

/-- `struct WsFill` from `websocket.hpp`. -/
structure WsFill where
  sid : Int := 0
  trade_id : String := ""
  order_id : String := ""
  market_ticker : String := ""
  is_taker : Bool := false
  side : Side := Side.yes
  yes_price : Int := 0
  no_price : Int := 0
  count : Int := 0
  action : Action := Action.buy
  timestamp : Int := 0
deriving DecidableEq, Repr

/-- `struct MarketLifecycle` from `websocket.hpp`. -/
structure MarketLifecycle where
  sid : Int := 0
  market_ticker : String := ""
  open_ts : Int := 0
  close_ts : Int := 0
  determination_ts : Option Int := none
  settled_ts : Option Int := none
  result : Option String := none
  is_deactivated : Bool := false
deriving DecidableEq, Repr

/-- `using WsMessage = std::variant<OrderbookSnapshot, OrderbookDelta, WsTrade,
WsFill, MarketLifecycle>`. -/
inductive WsMessage
  | snapshot (s : OrderbookSnapshot)
  | delta (d : OrderbookDelta)
  | trade (t : WsTrade)
  | fill (f : WsFill)
  | lifecycle (l : MarketLifecycle)
deriving DecidableEq, Repr

/-! ### Live market view (`examples/live_market_view.hpp`) -/

/-- A price → quantity book side (`std::map<std::int32_t, std::int32_t>`). -/
abbrev Book := List (Int × Int)

/-- `struct LiveMarketState` from `examples/live_market_view.hpp`, with the
default values produced by its default constructor. -/
structure LiveMarketState where
  ticker : String := ""
  best_bid_price : Option Int := none
  best_bid_size : Option Int := none
  best_ask_price : Option Int := none
  best_ask_size : Option Int := none
  last_trade_price : Option Int := none
  last_trade_size : Option Int := none
  last_trade_taker_side : Option Side := none
  last_trade_ts : Option Int := none
  last_seq : Int := 0
  yes_bids : Book := []
  yes_asks : Book := []
deriving DecidableEq, Repr

/-- The `states_` member of `LiveMarketView`: ticker → per-market state. -/
abbrev LiveView := List (String × LiveMarketState)

/-- `LiveMarketView::update_best_bid_ask`: best bid from the highest-priced
`yes_bids` entry (`rbegin`), best ask from the lowest-priced `yes_asks`
entry (`begin`); both cleared when the corresponding side is empty. -/
def update_best_bid_ask (state : LiveMarketState) : LiveMarketState :=
  let st1 :=
    match maxEntry? state.yes_bids with
    | some e => { state with best_bid_price := some e.1, best_bid_size := some e.2 }
    | none => { state with best_bid_price := none, best_bid_size := none }
  match minEntry? st1.yes_asks with
  | some e => { st1 with best_ask_price := some e.1, best_ask_size := some e.2 }
  | none => { st1 with best_ask_price := none, best_ask_size := none }

/-- The `yes_bids` map built by `LiveMarketView::handle_snapshot`: insert each
YES entry with positive quantity, in order. -/
def buildYesBids (entries : List OrderBookEntry) : Book :=
  entries.foldl
    (fun b e => if e.quantity > 0 then setKV b e.price_cents e.quantity else b) []

/-- The `yes_asks` map built by `LiveMarketView::handle_snapshot`: each NO
entry `(p, q)` with `q > 0` is stored at the complementary price `100 - p`. -/
def buildYesAsks (entries : List OrderBookEntry) : Book :=
  entries.foldl
    (fun b e => if e.quantity > 0 then setKV b (100 - e.price_cents) e.quantity else b) []

/-- `LiveMarketView::handle_snapshot`: fetch (or default-construct) the state
for the ticker, replace both book sides, record the sequence number, and
recompute best bid/ask. -/
def handle_snapshot (v : LiveView) (snap : OrderbookSnapshot) : LiveView :=
  let state := (lookupKV snap.market_ticker v).getD {}
  let state := { state with
    ticker := snap.market_ticker
    last_seq := snap.seq
    yes_bids := buildYesBids snap.yes
    yes_asks := buildYesAsks snap.no }
  setKV v snap.market_ticker (update_best_bid_ask state)

/-- The book mutation inside `LiveMarketView::handle_delta`:
`book[price] += delta; if (book[price] <= 0) book.erase(price);`. -/
def applyBookDelta (book : Book) (price delta : Int) : Book :=
  let q := (lookupKV price book).getD 0 + delta
  if q ≤ 0 then eraseKV (setKV book price q) price else setKV book price q

/-- `LiveMarketView::handle_delta`: fetch (or default-construct) the state for
the ticker, apply the quantity delta to `yes_bids` (YES side) or to
`yes_asks` at `100 - price` (NO side), record the sequence number, and
recompute best bid/ask. -/
def handle_delta (v : LiveView) (d : OrderbookDelta) : LiveView :=
  let state := (lookupKV d.market_ticker v).getD {}
  let state := { state with ticker := d.market_ticker, last_seq := d.seq }
  let state :=
    if d.side = Side.yes then
      { state with yes_bids := applyBookDelta state.yes_bids d.price d.delta }
    else
      { state with yes_asks := applyBookDelta state.yes_asks (100 - d.price) d.delta }
  setKV v d.market_ticker (update_best_bid_ask state)

/-- `LiveMarketView::handle_trade`: fetch (or default-construct) the state for
the ticker and overwrite the four `last_trade` fields unconditionally. -/
def handle_trade (v : LiveView) (t : WsTrade) : LiveView :=
  let state := (lookupKV t.market_ticker v).getD {}
  setKV v t.market_ticker { state with
    ticker := t.market_ticker
    last_trade_price := some t.yes_price
    last_trade_size := some t.count
    last_trade_taker_side := some t.taker_side
    last_trade_ts := some t.timestamp }

/-- `LiveMarketView::process_message`: dispatch on the variant alternative;
fills and lifecycle messages are ignored by the `if constexpr` chain. -/
def process_message (v : LiveView) : WsMessage → LiveView
  | WsMessage.snapshot s => handle_snapshot v s
  | WsMessage.delta d => handle_delta v d
  | WsMessage.trade t => handle_trade v t
  | WsMessage.fill _ => v
  | WsMessage.lifecycle _ => v

/-- State of a freshly-constructed `LiveMarketView` (empty `states_`). -/
def emptyView : LiveView := []

/-- Process a whole message sequence in arrival order. -/
def processAll (msgs : List WsMessage) : LiveView :=
  msgs.foldl process_message emptyView

/-! ### Book invariants -/

/-- Every stored price level has positive quantity. -/
def bookPos (b : Book) : Prop := ∀ e ∈ b, 0 < e.2

/-- Both book sides of every tracked market have positive quantities only. -/
def viewBooksPos (v : LiveView) : Prop :=
  ∀ e ∈ v, bookPos e.2.yes_bids ∧ bookPos e.2.yes_asks

/-- Snapshot from the spec example: YES side (50,10), NO side (40,5). -/
def exSnap : OrderbookSnapshot :=
  { seq := 7, market_ticker := "T", yes := [⟨50, 10⟩], no := [⟨40, 5⟩] }

/-- Delta from the spec example: NO side, price 40, delta -5. -/
def exDelta : OrderbookDelta :=
  { seq := 8, market_ticker := "T", price := 40, delta := -5, side := Side.no }

/-- Claimed relationship between the cached top-of-book fields and the two
book sides: the best bid is the highest price key present in `yes_bids`
(with its quantity as size), the best ask the lowest price key present in
`yes_asks`, and each is `none` exactly when its side is empty. -/
def bestBidAskConsistent (st : LiveMarketState) : Prop :=
  (∀ k, st.best_bid_price = some k →
    k ∈ st.yes_bids.map Prod.fst ∧ (∀ p ∈ st.yes_bids.map Prod.fst, p ≤ k) ∧
    st.best_bid_size = lookupKV k st.yes_bids) ∧
  (st.best_bid_price = none ↔ st.yes_bids = []) ∧
  (∀ k, st.best_ask_price = some k →
    k ∈ st.yes_asks.map Prod.fst ∧ (∀ p ∈ st.yes_asks.map Prod.fst, k ≤ p) ∧
    st.best_ask_size = lookupKV k st.yes_asks) ∧
  (st.best_ask_price = none ↔ st.yes_asks = [])

/-- Snapshot with three simultaneous price levels per side. -/
def exSnap3 : OrderbookSnapshot :=
  { seq := 11, market_ticker := "V", yes := [⟨50, 10⟩, ⟨52, 4⟩, ⟨48, 7⟩],
    no := [⟨40, 5⟩, ⟨38, 2⟩, ⟨45, 9⟩] }

/-! ### Snapshot book characterization -/

/-- Generalized book builder: insert each positive-quantity entry at the key
computed by `key`, starting from `acc`. `buildYesBids` and `buildYesAsks`
are its two instances. -/
def buildBook (key : OrderBookEntry → Int) (entries : List OrderBookEntry) (acc : Book) : Book :=
  entries.foldl (fun b e => if e.quantity > 0 then setKV b (key e) e.quantity else b) acc

/-! ### Deltas on unseen instruments, trade overwrites -/

/-- Delta on an instrument with no prior snapshot: YES side, price 55, +3. -/
def exDeltaFresh : OrderbookDelta :=
  { seq := 1, market_ticker := "U", price := 55, delta := 3, side := Side.yes }

/-! ### Retry policy (`include/kalshi/retry.hpp`) -/

/-- `struct HttpResponse` from `http_client.hpp` (`status_code` is an
`std::int16_t`, far from overflow for HTTP statuses). -/
structure HttpResponse where
  status_code : Int := 0
  body : String := ""
  headers : List (String × String) := []

/-- `struct RetryPolicy` with its default member initializers; the two
`double` fields are modelled as exact rationals (exact for the values the
spec discusses). -/
structure RetryPolicy where
  max_attempts : Int := 3
  initial_delay : Int := 100
  max_delay : Int := 10000
  backoff_multiplier : ℚ := 2
  jitter_factor : ℚ := 1/10
  retry_on_network_error : Bool := true
  retry_on_rate_limit : Bool := true
  retry_on_server_error : Bool := true

/-- `should_retry(const HttpResponse&, const RetryPolicy&)`: retry on 429
when rate-limit retries are enabled, else on any status ≥ 500 when
server-error retries are enabled, else not. -/
def should_retry (response : HttpResponse) (policy : RetryPolicy) : Bool :=
  if policy.retry_on_rate_limit ∧ response.status_code = 429 then true
  else if policy.retry_on_server_error ∧ response.status_code ≥ 500 then true
  else false

/-- `static_cast<std::int64_t>` applied to a nonnegative-or-negative
`double`: truncation toward zero. -/
def truncTowardZero (q : ℚ) : Int := if 0 ≤ q then ⌊q⌋ else ⌈q⌉

/-- `calculate_retry_delay(attempt, policy)`: multiply the initial delay by
the backoff multiplier `attempt - 1` times, cap at `max_delay`, then (only
when `jitter_factor > 0`) scale by the random draw from
`uniform_real_distribution(1 - jitter, 1 + jitter)`, passed in explicitly
here as `jitterDraw`; the result is cast to whole milliseconds. -/
def calculate_retry_delay (jitterDraw : ℚ) (attempt : Int) (policy : RetryPolicy) : Int :=
  let delay0 : ℚ := policy.initial_delay
  let delay1 := (List.range (attempt - 1).toNat).foldl
    (fun dd _ => dd * policy.backoff_multiplier) delay0
  let delay2 := min delay1 (policy.max_delay : ℚ)
  let delay3 := if policy.jitter_factor > 0 then delay2 * jitterDraw else delay2
  truncTowardZero delay3

/-- `RetryPolicy` with jitter disabled, all other fields at their defaults
(`initial_delay` 100 ms, `max_delay` 10000 ms, multiplier 2). -/
def zeroJitterPolicy : RetryPolicy := { jitter_factor := 0 }

/-! ### Error taxonomy (`include/kalshi/error.hpp`) -/

/-- `enum class ErrorCode`. -/
inductive ErrorCode
  | ok
  | networkError
  | authenticationError
  | invalidRequest
  | rateLimited
  | serverError
  | parseError
  | signingError
  | invalidKey
  | unknown
deriving DecidableEq, Repr

/-- `struct Error` with its `http_status\x7b0\x7d` default. -/
structure Error where
  code : ErrorCode
  message : String
  http_status : Int := 0
deriving DecidableEq, Repr

/-- `Error::network`. -/
def Error.network (msg : String) : Error := { code := ErrorCode.networkError, message := msg }

/-! ### WebSocket subscribe path (`src/ws/websocket.cpp`) -/

/-- `enum class Channel`. -/
inductive Channel
  | orderbookDelta
  | trade
  | fill
  | marketLifecycle
deriving DecidableEq, Repr

/-- `to_string(Channel)` from `websocket.hpp`. -/
def channel_to_string : Channel → String
  | Channel.orderbookDelta => "orderbook_delta"
  | Channel.trade => "trade"
  | Channel.fill => "fill"
  | Channel.marketLifecycle => "market_lifecycle"

/-- `struct SubscriptionId`. -/
structure SubscriptionId where
  sid : Int := 0
  channel : Channel := Channel.orderbookDelta
deriving DecidableEq, Repr

/-- `build_subscribe_command`: the JSON subscribe frame; the
`market_tickers` array is emitted only when the list is non-empty. -/
def build_subscribe_command (id : Int) (channel : Channel)
    (market_tickers : List String) : String :=
  "\x7b\"id\":" ++ toString id ++ ",\"cmd\":\"subscribe\",\"params\":\x7b\"channels\":[\""
    ++ channel_to_string channel ++ "\"]"
    ++ (if market_tickers.isEmpty then "" else
      ",\"market_tickers\":[" ++
        String.intercalate "," (market_tickers.map (fun t => "\"" ++ t ++ "\"")) ++ "]")
    ++ "\x7d\x7d"

/-- The members of `WsImplData` that `subscribe_orderbook` touches: the
`connected` flag, the `next_command_id` counter and the outbound
`send_queue`. -/
structure WsClientState where
  connected : Bool := false
  next_command_id : Int := 1
  send_queue : List String := []
deriving DecidableEq, Repr

/-- `WebSocketClient::subscribe_orderbook`: fail with a `NetworkError` when
not connected, fail with `InvalidRequest` on an empty ticker list, else
queue the subscribe command and return the `SubscriptionId` carrying the
consumed command id (the counter is post-incremented by `fetch_add`). -/
def subscribe_orderbook (st : WsClientState) (market_tickers : List String) :
    Except Error (SubscriptionId × WsClientState) :=
  if ¬ st.connected then Except.error (Error.network "Not connected")
  else if market_tickers.isEmpty then
    Except.error { code := ErrorCode.invalidRequest, message := "market_tickers required" }
  else
    let id := st.next_command_id
    let cmd := build_subscribe_command id Channel.orderbookDelta market_tickers
    Except.ok ({ sid := id, channel := Channel.orderbookDelta },
      { st with next_command_id := id + 1, send_queue := st.send_queue ++ [cmd] })

/-! ### Signer (`src/auth/signer.cpp`) -/

/-- `struct AuthHeaders` from `signer.hpp`. -/
structure AuthHeaders where
  access_key : String
  signature : String
  timestamp : String
deriving DecidableEq, Repr

/-- The base64 alphabet. -/
def base64Chars : List Char :=
  "ABCDEFGHIJKLMNOPQRSTUVWXYZabcdefghijklmnopqrstuvwxyz0123456789+/".toList

/-- Character of the base64 alphabet at index `n < 64`. -/
def base64Char (n : Nat) : Char := base64Chars.getD n '?'

/-- `base64_encode` from `signer.cpp`: RFC 4648 base64 with `=` padding and
no line breaks, as produced by the OpenSSL `BIO_f_base64` filter with
`BIO_FLAGS_BASE64_NO_NL`. Bytes are `Nat`s below 256. -/
def base64_encode : List Nat → String
  | [] => ""
  | [b0] =>
    String.mk [base64Char (b0 / 4), base64Char (b0 % 4 * 16), '=', '=']
  | [b0, b1] =>
    String.mk [base64Char (b0 / 4), base64Char (b0 % 4 * 16 + b1 / 16),
      base64Char (b1 % 16 * 4), '=']
  | b0 :: b1 :: b2 :: rest =>
    String.mk [base64Char (b0 / 4), base64Char (b0 % 4 * 16 + b1 / 16),
      base64Char (b1 % 16 * 4 + b2 / 64), base64Char (b2 % 64)] ++ base64_encode rest

/-- Abstract model of the OpenSSL RSA key handle held by `Signer::Impl`
(`EVP_PKEY`) together with the `EVP_DigestSign` pipeline configured in
`sign_with_timestamp` (RSA-PSS padding, SHA-256, salt length =
digest length = 32): `sign` maps a message to the raw signature bytes for
one fixed draw of the PSS salt randomness; `verify` checks a candidate
signature against a message under the corresponding public key;
`sign_verifies` is the RSA-PSS round-trip guarantee of the library. -/
structure SignerModel where
  api_key_id : String
  sign : String → List Nat
  verify : String → List Nat → Bool
  sign_verifies : ∀ msg : String, verify msg (sign msg) = true

/-- `Signer::sign_with_timestamp`: build the canonical message
`std::to_string(timestamp_ms) + method + path`, sign it, and return the
headers (key id, base64 signature, decimal timestamp). The OpenSSL error
branches (context allocation, padding setup) are failures of the external
library, unreachable in the model. -/
def sign_with_timestamp (S : SignerModel) (method path : String)
    (timestamp_ms : Int) : AuthHeaders :=
  let timestamp_str := toString timestamp_ms
  let message := timestamp_str ++ method ++ path
  { access_key := S.api_key_id
    signature := base64_encode (S.sign message)
    timestamp := timestamp_str }

/-! ### Inbound frame parsing (`WsImplData::handle_message`) -/

/-- First index at which `needle` occurs as a contiguous substring of
`hay`; models `std::string::find(needle)` (with `none` for `npos`). -/
def findSub (hay needle : List Char) : Option Nat :=
  match hay with
  | [] => if needle.isEmpty then some 0 else none
  | _ :: rest =>
    if needle.isPrefixOf hay then some 0
    else (findSub rest needle).map (· + 1)

/-- First index `≥ start` holding character `c`; models
`std::string::find(c, start)`. -/
def findCharFrom (hay : List Char) (c : Char) (start : Nat) : Option Nat :=
  (findSub (hay.drop start) [c]).map (· + start)

/-- Two's-complement reduction of an unbounded integer into
`std::int32_t`: the value the `val = val * 10 + digit` accumulation of
`extract_int` holds after it overflows (wrap-around semantics of the
compiled code). -/
def wrapI32 (n : Int) : Int :=
  let m := n % 4294967296
  if m < 2147483648 then m else m - 4294967296

/-- The digit-accumulation loop of `extract_int`:
`while (digit) val = val * 10 + (c - '0');` over an `std::int32_t`,
wrapping on overflow. -/
def digitAcc (val : Int) : List Char → Int
  | [] => val
  | c :: rest =>
    if '0' ≤ c ∧ c ≤ '9' then digitAcc (wrapI32 (val * 10 + ((c.toNat : Int) - 48))) rest
    else val

/-- The same loop over unbounded integers: the value the digit run denotes
when no overflow occurs. -/
def digitAccNoWrap (val : Int) : List Char → Int
  | [] => val
  | c :: rest =>
    if '0' ≤ c ∧ c ≤ '9' then digitAccNoWrap (val * 10 + ((c.toNat : Int) - 48)) rest
    else val

/-- The `extract_int` lambda in `WsImplData::handle_message`: locate
`"key"`, then the next `:`, skip spaces and tabs, and accumulate decimal
digits into an `std::int32_t`; any missing piece yields 0, and a non-digit
(such as a `-` sign) stops the loop at once. -/
def extract_int (json : List Char) (key : String) : Int :=
  match findSub json ('"' :: key.toList ++ ['"']) with
  | none => 0
  | some pos =>
    match findCharFrom json ':' pos with
    | none => 0
    | some pos2 =>
      digitAcc 0 ((json.drop (pos2 + 1)).dropWhile (fun c => c = ' ' ∨ c = '\t'))

/-- `extract_int` as it would behave with an unbounded accumulator: the
exact value of the digit run. -/
def extract_int_ideal (json : List Char) (key : String) : Int :=
  match findSub json ('"' :: key.toList ++ ['"']) with
  | none => 0
  | some pos =>
    match findCharFrom json ':' pos with
    | none => 0
    | some pos2 =>
      digitAccNoWrap 0 ((json.drop (pos2 + 1)).dropWhile (fun c => c = ' ' ∨ c = '\t'))

/-- The `extract_string` lambda in `WsImplData::handle_message`: locate
`"key"`, the next `:`, then the text between the next two quotes; any
missing piece yields the empty string. -/
def extract_string (json : List Char) (key : String) : String :=
  match findSub json ('"' :: key.toList ++ ['"']) with
  | none => ""
  | some pos =>
    match findCharFrom json ':' pos with
    | none => ""
    | some pos2 =>
      match findCharFrom json '"' pos2 with
      | none => ""
      | some pos3 =>
        match findCharFrom json '"' (pos3 + 1) with
        | none => ""
        | some pend => String.mk ((json.drop (pos3 + 1)).take (pend - (pos3 + 1)))

/-- The `type` discriminator extraction at the top of `handle_message`:
find `"type"`, the next `:`, and the text between the next two quotes;
`none` models the early `return`s. -/
def ws_msg_type (json : List Char) : Option String :=
  match findSub json ('"' :: "type".toList ++ ['"']) with
  | none => none
  | some type_pos =>
    match findCharFrom json ':' type_pos with
    | none => none
    | some colon =>
      match findCharFrom json '"' colon with
      | none => none
      | some quote1 =>
        match findCharFrom json '"' (quote1 + 1) with
        | none => none
        | some quote2 =>
          some (String.mk ((json.drop (quote1 + 1)).take (quote2 - (quote1 + 1))))

/-- The dispatch chain of `WsImplData::handle_message`, restricted to the
frames that reach `invoke_message_callback`; the `error` branch goes to the
error callback and the snapshot branch leaves the `yes`/`no` arrays empty
(the source does not parse them — see the note at its line 303). -/
def ws_decode (json : List Char) : Option WsMessage :=
  match ws_msg_type json with
  | none => none
  | some t =>
    if t = "error" then none
    else if t = "orderbook_snapshot" then
      some (WsMessage.snapshot
        { sid := extract_int json "sid"
          seq := extract_int json "seq"
          market_ticker := extract_string json "market_ticker" })
    else if t = "orderbook_delta" then
      some (WsMessage.delta
        { sid := extract_int json "sid"
          seq := extract_int json "seq"
          market_ticker := extract_string json "market_ticker"
          price := extract_int json "price"
          delta := extract_int json "delta"
          side := if extract_string json "side" = "yes" then Side.yes else Side.no })
    else if t = "trade" then
      some (WsMessage.trade
        { sid := extract_int json "sid"
          trade_id := extract_string json "trade_id"
          market_ticker := extract_string json "market_ticker"
          yes_price := extract_int json "yes_price"
          no_price := extract_int json "no_price"
          count := extract_int json "count"
          taker_side := if extract_string json "taker_side" = "yes" then Side.yes else Side.no
          timestamp := extract_int json "ts" })
    else if t = "fill" then
      some (WsMessage.fill
        { sid := extract_int json "sid"
          trade_id := extract_string json "trade_id"
          order_id := extract_string json "order_id"
          market_ticker := extract_string json "market_ticker"
          is_taker := extract_string json "is_taker" = "true"
          side := if extract_string json "side" = "yes" then Side.yes else Side.no
          yes_price := extract_int json "yes_price"
          no_price := extract_int json "no_price"
          count := extract_int json "count"
          action := if extract_string json "action" = "buy" then Action.buy else Action.sell
          timestamp := extract_int json "ts" })
    else if t = "market_lifecycle" then
      some (WsMessage.lifecycle
        { sid := extract_int json "sid"
          market_ticker := extract_string json "market_ticker"
          open_ts := extract_int json "open_ts"
          close_ts := extract_int json "close_ts"
          determination_ts :=
            if extract_int json "determination_ts" > 0
            then some (extract_int json "determination_ts") else none
          settled_ts :=
            if extract_int json "settled_ts" > 0
            then some (extract_int json "settled_ts") else none
          result :=
            if extract_string json "result" = "" then none
            else some (extract_string json "result")
          is_deactivated := extract_string json "is_deactivated" = "true" })
    else none

/-- Frame whose `delta` field carries the negative literal `-5`. -/
def exNegFrame : List Char :=
  "\x7b\"type\":\"orderbook_delta\",\"market_ticker\":\"T\",\"price\":50,\"delta\":-5,\"side\":\"yes\"\x7d".toList

/-- The delta event `ws_decode` delivers for `exNegFrame`: the `-` sign
stops the digit loop, so `delta` decodes to 0. -/
def exNegDelta : OrderbookDelta :=
  { market_ticker := "T", price := 50, delta := 0, side := Side.yes }

/-- Frame whose `delta` digit run is `2147483650 ≥ 2^31`. -/
def exOverflowFrame : List Char :=
  "\x7b\"type\":\"orderbook_delta\",\"sid\":1,\"seq\":2,\"market_ticker\":\"KXBTC\",\"price\":55,\"delta\":2147483650,\"side\":\"yes\"\x7d".toList

/-- The delta event `ws_decode` delivers for `exOverflowFrame`: the int32
accumulator wraps to `-2147483646`. -/
def exOverflowDelta : OrderbookDelta :=
  { sid := 1, seq := 2, market_ticker := "KXBTC", price := 55,
    delta := -2147483646, side := Side.yes }

/-! ### Theorems -/

theorem lookupKV_setKV {α β : Type} [DecidableEq α] (m : List (α × β)) (k k' : α) (v : β) :
    lookupKV k' (setKV m k v) = if k' = k then some v else lookupKV k' m := by
  induction m with
  | nil =>
    by_cases h : k' = k <;> simp [setKV, lookupKV, h]
    exact fun h2 => absurd h2.symm h
  | cons e rest ih =>
    by_cases h1 : e.1 = k
    · by_cases h2 : k' = k
      · simp [setKV, lookupKV, h1, h2]
      · have h3 : ¬ e.1 = k' := fun hh => h2 ((hh ▸ h1 : k' = k))
        have h4 : ¬ k = k' := fun hh => h2 hh.symm
        simp [setKV, lookupKV, h1, h2, h3, h4]
    · by_cases h2 : e.1 = k'
      · have hne : ¬ k' = k := fun hh => h1 (hh ▸ h2)
        simp [setKV, lookupKV, h1, h2, hne]
      · simp [setKV, lookupKV, h1, h2, ih]

theorem lookupKV_eraseKV {α β : Type} [DecidableEq α] (m : List (α × β)) (k k' : α) :
    lookupKV k' (eraseKV m k) = if k' = k then none else lookupKV k' m := by
  induction m with
  | nil => simp [eraseKV, lookupKV]
  | cons e rest ih =>
    by_cases h1 : e.1 = k
    · by_cases h2 : k' = k
      · subst h2
        simpa [eraseKV, List.filter_cons, h1, lookupKV] using ih
      · have h3 : ¬ e.1 = k' := fun hh => h2 ((hh ▸ h1 : k' = k))
        have h4 : ¬ k = k' := fun hh => h2 hh.symm
        simp [eraseKV, List.filter_cons, h1, h2, h4, lookupKV] at ih ⊢
        exact ih
    · by_cases h2 : e.1 = k'
      · have hne : ¬ k' = k := fun hh => h1 (hh ▸ h2)
        simp [eraseKV, List.filter_cons, h1, h2, hne, lookupKV]
      · simp [eraseKV, List.filter_cons, h1, h2, lookupKV] at ih ⊢
        exact ih

theorem maxEntry?_eq_none {β : Type} (m : List (Int × β)) :
    maxEntry? m = none ↔ m = [] := by
  cases m with
  | nil => simp [maxEntry?]
  | cons e rest =>
    simp only [maxEntry?]
    cases maxEntry? rest with
    | none => simp
    | some e2 =>
      constructor
      · intro h
        by_cases hc : e2.1 > e.1 <;> simp [hc] at h
      · intro h
        exact absurd h (by simp)

theorem minEntry?_eq_none {β : Type} (m : List (Int × β)) :
    minEntry? m = none ↔ m = [] := by
  cases m with
  | nil => simp [minEntry?]
  | cons e rest =>
    simp only [minEntry?]
    cases minEntry? rest with
    | none => simp
    | some e2 =>
      constructor
      · intro h
        by_cases hc : e2.1 < e.1 <;> simp [hc] at h
      · intro h
        exact absurd h (by simp)

theorem maxEntry?_spec {β : Type} (m : List (Int × β)) (k : Int) (v : β)
    (h : maxEntry? m = some (k, v)) :
    k ∈ m.map Prod.fst ∧ (∀ k' ∈ m.map Prod.fst, k' ≤ k) ∧ lookupKV k m = some v := by
  induction m generalizing k v with
  | nil => simp [maxEntry?] at h
  | cons e rest ih =>
    simp only [maxEntry?] at h
    simp only [List.map_cons, List.mem_cons]
    cases hm : maxEntry? rest with
    | none =>
      rw [hm] at h
      have hr : rest = [] := (maxEntry?_eq_none rest).mp hm
      subst hr
      injection h with h
      subst h
      simp [lookupKV]
    | some e2 =>
      rw [hm] at h
      dsimp only at h
      by_cases hc : e2.1 > e.1
      · rw [if_pos hc] at h
        injection h with h
        subst h
        have h2 := ih k v hm
        refine ⟨Or.inr h2.1, ?_, ?_⟩
        · intro k' hk'
          rcases hk' with hk' | hk'
          · exact le_of_lt (hk' ▸ hc)
          · exact h2.2.1 k' hk'
        · have hne : ¬ e.1 = k := ne_of_lt hc
          simp only [lookupKV, hne, if_false]
          exact h2.2.2
      · rw [if_neg hc] at h
        injection h with h
        subst h
        have h2 := ih e2.1 e2.2 hm
        refine ⟨Or.inl rfl, ?_, by simp [lookupKV]⟩
        intro k' hk'
        rcases hk' with hk' | hk'
        · exact le_of_eq hk'
        · exact le_trans (h2.2.1 k' hk') (not_lt.mp hc)

theorem minEntry?_spec {β : Type} (m : List (Int × β)) (k : Int) (v : β)
    (h : minEntry? m = some (k, v)) :
    k ∈ m.map Prod.fst ∧ (∀ k' ∈ m.map Prod.fst, k ≤ k') ∧ lookupKV k m = some v := by
  induction m generalizing k v with
  | nil => simp [minEntry?] at h
  | cons e rest ih =>
    simp only [minEntry?] at h
    simp only [List.map_cons, List.mem_cons]
    cases hm : minEntry? rest with
    | none =>
      rw [hm] at h
      have hr : rest = [] := (minEntry?_eq_none rest).mp hm
      subst hr
      injection h with h
      subst h
      simp [lookupKV]
    | some e2 =>
      rw [hm] at h
      dsimp only at h
      by_cases hc : e2.1 < e.1
      · rw [if_pos hc] at h
        injection h with h
        subst h
        have h2 := ih k v hm
        refine ⟨Or.inr h2.1, ?_, ?_⟩
        · intro k' hk'
          rcases hk' with hk' | hk'
          · exact le_of_lt (hk' ▸ hc)
          · exact h2.2.1 k' hk'
        · have hne : ¬ e.1 = k := (ne_of_lt hc).symm
          simp only [lookupKV, hne, if_false]
          exact h2.2.2
      · rw [if_neg hc] at h
        injection h with h
        subst h
        have h2 := ih e2.1 e2.2 hm
        refine ⟨Or.inl rfl, ?_, by simp [lookupKV]⟩
        intro k' hk'
        rcases hk' with hk' | hk'
        · exact le_of_eq hk'.symm
        · exact le_trans (not_lt.mp hc) (h2.2.1 k' hk')

theorem mem_setKV {α β : Type} [DecidableEq α] {m : List (α × β)} {k : α} {v : β}
    {e : α × β} (h : e ∈ setKV m k v) : e = (k, v) ∨ e ∈ m := by
  induction m with
  | nil => simpa [setKV] using h
  | cons e0 rest ih =>
    by_cases h1 : e0.1 = k
    · simp only [setKV, if_pos h1, List.mem_cons] at h
      rcases h with h2 | h2
      · exact Or.inl h2
      · exact Or.inr (List.mem_cons_of_mem _ h2)
    · simp only [setKV, if_neg h1, List.mem_cons] at h
      rcases h with h2 | h2
      · exact Or.inr (by simp [h2])
      · rcases ih h2 with h3 | h3
        · exact Or.inl h3
        · exact Or.inr (List.mem_cons_of_mem _ h3)

theorem bookPos_setKV {b : Book} {p q : Int} (hb : bookPos b) (hq : 0 < q) :
    bookPos (setKV b p q) := by
  intro e he
  rcases mem_setKV he with h | h
  · simpa [h] using hq
  · exact hb e h

theorem bookPos_eraseKV {b : Book} {p : Int} (hb : bookPos b) :
    bookPos (eraseKV b p) := by
  intro e he
  exact hb e (List.mem_of_mem_filter he)

theorem bookPos_applyBookDelta {b : Book} (p d : Int) (hb : bookPos b) :
    bookPos (applyBookDelta b p d) := by
  unfold applyBookDelta
  by_cases hq : (lookupKV p b).getD 0 + d ≤ 0
  · simp only [hq, if_true, if_pos]
    intro e he
    have h1 := List.mem_filter.mp he
    rcases mem_setKV h1.1 with h | h
    · exact absurd (show e.1 = p by rw [h]) (by simpa using h1.2)
    · exact hb e h
  · simp only [hq, if_false, if_neg]
    exact bookPos_setKV hb (by omega)

theorem update_best_bid_ask_yes_bids (st : LiveMarketState) :
    (update_best_bid_ask st).yes_bids = st.yes_bids := by
  unfold update_best_bid_ask
  dsimp only
  split <;> split <;> rfl

theorem update_best_bid_ask_yes_asks (st : LiveMarketState) :
    (update_best_bid_ask st).yes_asks = st.yes_asks := by
  unfold update_best_bid_ask
  dsimp only
  split <;> split <;> rfl

theorem update_best_bid_ask_last_seq (st : LiveMarketState) :
    (update_best_bid_ask st).last_seq = st.last_seq := by
  unfold update_best_bid_ask
  dsimp only
  split <;> split <;> rfl

theorem bookPos_buildAux (key : OrderBookEntry → Int) (entries : List OrderBookEntry)
    (acc : Book) (hacc : bookPos acc) :
    bookPos (entries.foldl
      (fun b e => if e.quantity > 0 then setKV b (key e) e.quantity else b) acc) := by
  induction entries generalizing acc with
  | nil => exact hacc
  | cons e rest ih =>
    simp only [List.foldl_cons]
    by_cases hq : e.quantity > 0
    · exact ih _ (by rw [if_pos hq]; exact bookPos_setKV hacc hq)
    · exact ih _ (by rw [if_neg hq]; exact hacc)

theorem bookPos_buildYesBids (entries : List OrderBookEntry) :
    bookPos (buildYesBids entries) :=
  bookPos_buildAux (fun e => e.price_cents) entries [] (by intro e he; cases he)

theorem bookPos_buildYesAsks (entries : List OrderBookEntry) :
    bookPos (buildYesAsks entries) :=
  bookPos_buildAux (fun e => 100 - e.price_cents) entries [] (by intro e he; cases he)

theorem viewBooksPos_setKV {v : LiveView} {t : String} {st : LiveMarketState}
    (hv : viewBooksPos v) (hst : bookPos st.yes_bids ∧ bookPos st.yes_asks) :
    viewBooksPos (setKV v t st) := by
  intro e he
  rcases mem_setKV he with h | h
  · rw [h]
    exact hst
  · exact hv e h

theorem viewBooksPos_fetched {v : LiveView} (hv : viewBooksPos v) (t : String) :
    bookPos ((lookupKV t v).getD {}).yes_bids ∧ bookPos ((lookupKV t v).getD {}).yes_asks := by
  cases hl : lookupKV t v with
  | none =>
    constructor <;> · intro e he; simp [hl] at he
  | some st =>
    have : (t, st) ∈ v := by
      clear hv
      induction v with
      | nil => simp [lookupKV] at hl
      | cons e rest ih =>
        by_cases h1 : e.1 = t
        · simp only [lookupKV, if_pos h1] at hl
          injection hl with hl
          have he : e = (t, st) := Prod.ext h1 hl
          rw [← he]
          exact List.mem_cons_self e rest
        · simp only [lookupKV, if_neg h1] at hl
          exact List.mem_cons_of_mem _ (ih hl)
    simpa [hl] using hv (t, st) this

theorem viewBooksPos_process (v : LiveView) (msg : WsMessage) (hv : viewBooksPos v) :
    viewBooksPos (process_message v msg) := by
  cases msg with
  | snapshot s =>
    refine viewBooksPos_setKV hv ?_
    rw [update_best_bid_ask_yes_bids, update_best_bid_ask_yes_asks]
    exact ⟨bookPos_buildYesBids s.yes, bookPos_buildYesAsks s.no⟩
  | delta d =>
    have hf := viewBooksPos_fetched hv d.market_ticker
    refine viewBooksPos_setKV hv ?_
    rw [update_best_bid_ask_yes_bids, update_best_bid_ask_yes_asks]
    by_cases hside : d.side = Side.yes
    · simp only [handle_delta, hside, if_pos]
      exact ⟨bookPos_applyBookDelta _ _ hf.1, hf.2⟩
    · simp only [handle_delta, hside, if_neg]
      exact ⟨hf.1, bookPos_applyBookDelta _ _ hf.2⟩
  | trade t =>
    exact viewBooksPos_setKV hv (viewBooksPos_fetched hv t.market_ticker)
  | fill f => exact hv
  | lifecycle l => exact hv

theorem viewBooksPos_processAll (msgs : List WsMessage) : viewBooksPos (processAll msgs) := by
  suffices h : ∀ (v : LiveView), viewBooksPos v → viewBooksPos (msgs.foldl process_message v) by
    exact h emptyView (by intro e he; cases he)
  induction msgs with
  | nil => intro v hv; exact hv
  | cons m rest ih =>
    intro v hv
    exact ih _ (viewBooksPos_process v m hv)

/-- C2: after any finite sequence of websocket events, no stored price level
in `yes_bids` or `yes_asks` of any market has quantity ≤ 0; and in the spec's
example (snapshot with yes (50,10) / no (40,5), then delta of -5 on the NO
side at price 40) the `yes_asks` level at price 60 is removed entirely. -/
theorem books_never_nonpositive :
    (∀ msgs : List WsMessage, viewBooksPos (processAll msgs))
    ∧ lookupKV 60 ((lookupKV "T" (processAll
        [WsMessage.snapshot exSnap, WsMessage.delta exDelta])).getD {}).yes_asks = none := by
  exact ⟨viewBooksPos_processAll, by decide⟩

theorem lookupKV_setKV_self {α β : Type} [DecidableEq α] (m : List (α × β)) (k : α) (v : β) :
    lookupKV k (setKV m k v) = some v := by
  rw [lookupKV_setKV]
  simp

theorem update_best_bid_price (st : LiveMarketState) :
    (update_best_bid_ask st).best_bid_price = (maxEntry? st.yes_bids).map Prod.fst := by
  rcases hb : maxEntry? st.yes_bids with _ | e <;>
    rcases ha : minEntry? st.yes_asks with _ | e2 <;>
      simp [update_best_bid_ask, hb, ha]

theorem update_best_bid_size (st : LiveMarketState) :
    (update_best_bid_ask st).best_bid_size = (maxEntry? st.yes_bids).map Prod.snd := by
  rcases hb : maxEntry? st.yes_bids with _ | e <;>
    rcases ha : minEntry? st.yes_asks with _ | e2 <;>
      simp [update_best_bid_ask, hb, ha]

theorem update_best_ask_price (st : LiveMarketState) :
    (update_best_bid_ask st).best_ask_price = (minEntry? st.yes_asks).map Prod.fst := by
  rcases hb : maxEntry? st.yes_bids with _ | e <;>
    rcases ha : minEntry? st.yes_asks with _ | e2 <;>
      simp [update_best_bid_ask, hb, ha]

theorem update_best_ask_size (st : LiveMarketState) :
    (update_best_bid_ask st).best_ask_size = (minEntry? st.yes_asks).map Prod.snd := by
  rcases hb : maxEntry? st.yes_bids with _ | e <;>
    rcases ha : minEntry? st.yes_asks with _ | e2 <;>
      simp [update_best_bid_ask, hb, ha]

theorem update_best_bid_ask_consistent (st : LiveMarketState) :
    bestBidAskConsistent (update_best_bid_ask st) := by
  refine ⟨?_, ?_, ?_, ?_⟩
  · intro k hk
    rw [update_best_bid_price] at hk
    rw [update_best_bid_ask_yes_bids, update_best_bid_size]
    cases hb : maxEntry? st.yes_bids with
    | none => rw [hb] at hk; cases hk
    | some e =>
      rw [hb] at hk
      injection hk with hk
      obtain ⟨h1, h2, h3⟩ := maxEntry?_spec st.yes_bids e.1 e.2 (by rw [hb])
      subst hk
      exact ⟨h1, h2, by rw [h3]; rfl⟩
  · rw [update_best_bid_price, update_best_bid_ask_yes_bids]
    rw [Option.map_eq_none']
    exact maxEntry?_eq_none st.yes_bids
  · intro k hk
    rw [update_best_ask_price] at hk
    rw [update_best_bid_ask_yes_asks, update_best_ask_size]
    cases ha : minEntry? st.yes_asks with
    | none => rw [ha] at hk; cases hk
    | some e =>
      rw [ha] at hk
      injection hk with hk
      obtain ⟨h1, h2, h3⟩ := minEntry?_spec st.yes_asks e.1 e.2 (by rw [ha])
      subst hk
      exact ⟨h1, h2, by rw [h3]; rfl⟩
  · rw [update_best_ask_price, update_best_bid_ask_yes_asks]
    rw [Option.map_eq_none']
    exact minEntry?_eq_none st.yes_asks

/-- C4: after every snapshot or delta event the updated market's cached best
bid is the highest price key of `yes_bids` with its quantity as size, the
best ask is the lowest price key of `yes_asks`, each `none` exactly when the
side is empty; checked concretely on a book with three levels per side. -/
theorem best_bid_ask_correct :
    (∀ (v : LiveView) (s : OrderbookSnapshot),
      ∃ st, lookupKV s.market_ticker (handle_snapshot v s) = some st ∧
        bestBidAskConsistent st)
    ∧ (∀ (v : LiveView) (d : OrderbookDelta),
      ∃ st, lookupKV d.market_ticker (handle_delta v d) = some st ∧
        bestBidAskConsistent st)
    ∧ (((lookupKV "V" (processAll [WsMessage.snapshot exSnap3])).getD {}).best_bid_price
          = some 52
      ∧ ((lookupKV "V" (processAll [WsMessage.snapshot exSnap3])).getD {}).best_bid_size
          = some 4
      ∧ ((lookupKV "V" (processAll [WsMessage.snapshot exSnap3])).getD {}).best_ask_price
          = some 55
      ∧ ((lookupKV "V" (processAll [WsMessage.snapshot exSnap3])).getD {}).best_ask_size
          = some 9) := by
  refine ⟨?_, ?_, by decide⟩
  · intro v s
    unfold handle_snapshot
    exact ⟨_, lookupKV_setKV_self _ _ _, update_best_bid_ask_consistent _⟩
  · intro v d
    unfold handle_delta
    exact ⟨_, lookupKV_setKV_self _ _ _, update_best_bid_ask_consistent _⟩

theorem buildYesBids_eq_buildBook (entries : List OrderBookEntry) :
    buildYesBids entries = buildBook (fun e => e.price_cents) entries [] := rfl

theorem buildYesAsks_eq_buildBook (entries : List OrderBookEntry) :
    buildYesAsks entries = buildBook (fun e => 100 - e.price_cents) entries [] := rfl

theorem buildBook_cons (key : OrderBookEntry → Int) (e0 : OrderBookEntry)
    (rest : List OrderBookEntry) (acc : Book) :
    buildBook key (e0 :: rest) acc =
      buildBook key rest (if e0.quantity > 0 then setKV acc (key e0) e0.quantity else acc) := rfl

theorem lookup_buildBook_notMem (key : OrderBookEntry → Int) (entries : List OrderBookEntry)
    (acc : Book) (p : Int) (hp : p ∉ entries.map key) :
    lookupKV p (buildBook key entries acc) = lookupKV p acc := by
  induction entries generalizing acc with
  | nil => rfl
  | cons e0 rest ih =>
    simp only [List.map_cons, List.mem_cons, not_or] at hp
    rw [buildBook_cons, ih _ hp.2]
    by_cases hq : e0.quantity > 0
    · rw [if_pos hq, lookupKV_setKV, if_neg hp.1]
    · rw [if_neg hq]

theorem lookup_buildBook_mem_pos (key : OrderBookEntry → Int) (entries : List OrderBookEntry)
    (acc : Book) (e : OrderBookEntry) (he : e ∈ entries) (hq : 0 < e.quantity)
    (hnd : (entries.map key).Nodup) :
    lookupKV (key e) (buildBook key entries acc) = some e.quantity := by
  induction entries generalizing acc with
  | nil => cases he
  | cons e0 rest ih =>
    simp only [List.map_cons, List.nodup_cons] at hnd
    rcases List.mem_cons.mp he with he0 | he0
    · subst he0
      rw [buildBook_cons, if_pos hq, lookup_buildBook_notMem key rest _ (key e) hnd.1]
      exact lookupKV_setKV_self acc (key e) e.quantity
    · rw [buildBook_cons]
      exact ih _ he0 hnd.2

theorem lookup_buildBook_mem_nonpos (key : OrderBookEntry → Int) (entries : List OrderBookEntry)
    (acc : Book) (e : OrderBookEntry) (he : e ∈ entries) (hq : ¬ 0 < e.quantity)
    (hnd : (entries.map key).Nodup) :
    lookupKV (key e) (buildBook key entries acc) = lookupKV (key e) acc := by
  induction entries generalizing acc with
  | nil => rfl
  | cons e0 rest ih =>
    simp only [List.map_cons, List.nodup_cons] at hnd
    rcases List.mem_cons.mp he with he0 | he0
    · subst he0
      rw [buildBook_cons, if_neg hq]
      exact lookup_buildBook_notMem key rest acc (key e) hnd.1
    · have hne : key e0 ≠ key e := fun hh => hnd.1 (hh ▸ List.mem_map_of_mem key he0)
      rw [buildBook_cons, ih _ he0 hnd.2]
      by_cases hq0 : e0.quantity > 0
      · rw [if_pos hq0, lookupKV_setKV, if_neg (fun hh => hne hh.symm)]
      · rw [if_neg hq0]

theorem lookup_buildBook_iff (key : OrderBookEntry → Int) (entries : List OrderBookEntry)
    (hnd : (entries.map key).Nodup) (p : Int) (q : Int) :
    lookupKV p (buildBook key entries []) = some q ↔
      ∃ e ∈ entries, key e = p ∧ e.quantity = q ∧ 0 < q := by
  constructor
  · intro h
    by_cases hp : p ∈ entries.map key
    · obtain ⟨e, he, hkey⟩ := List.mem_map.mp hp
      by_cases hpos : 0 < e.quantity
      · rw [← hkey, lookup_buildBook_mem_pos key entries [] e he hpos hnd] at h
        injection h with h
        exact ⟨e, he, hkey, h, h ▸ hpos⟩
      · rw [← hkey, lookup_buildBook_mem_nonpos key entries [] e he hpos hnd] at h
        cases h
    · rw [lookup_buildBook_notMem key entries [] p hp] at h
      cases h
  · rintro ⟨e, he, hkey, hqty, hpos⟩
    rw [← hkey, lookup_buildBook_mem_pos key entries [] e he (hqty ▸ hpos) hnd]
    rw [hqty]

theorem lookup_buildYesBids_iff (entries : List OrderBookEntry)
    (hnd : (entries.map OrderBookEntry.price_cents).Nodup) (p q : Int) :
    lookupKV p (buildYesBids entries) = some q ↔
      (⟨p, q⟩ : OrderBookEntry) ∈ entries ∧ 0 < q := by
  rw [buildYesBids_eq_buildBook, lookup_buildBook_iff _ entries hnd p q]
  constructor
  · rintro ⟨e, he, hkey, hqty, hpos⟩
    cases e
    cases hkey
    cases hqty
    exact ⟨he, hpos⟩
  · rintro ⟨he, hpos⟩
    exact ⟨⟨p, q⟩, he, rfl, rfl, hpos⟩

theorem lookup_buildYesAsks_iff (entries : List OrderBookEntry)
    (hnd : (entries.map OrderBookEntry.price_cents).Nodup) (p q : Int) :
    lookupKV p (buildYesAsks entries) = some q ↔
      (⟨100 - p, q⟩ : OrderBookEntry) ∈ entries ∧ 0 < q := by
  have hnd2 : (entries.map (fun e => 100 - e.price_cents)).Nodup := by
    have hinj : Function.Injective (fun x : Int => 100 - x) := by
      intro a b hab
      simpa using hab
    have := hnd.map (f := fun x : Int => 100 - x) hinj
    simpa [List.map_map, Function.comp] using this
  rw [buildYesAsks_eq_buildBook, lookup_buildBook_iff _ entries hnd2 p q]
  constructor
  · rintro ⟨e, he, hkey, hqty, hpos⟩
    have : e = ⟨100 - p, q⟩ := by
      cases e
      simp only at hkey hqty
      subst hqty
      simp only [OrderBookEntry.mk.injEq, and_true]
      omega
    exact ⟨this ▸ he, hpos⟩
  · rintro ⟨he, hpos⟩
    exact ⟨⟨100 - p, q⟩, he, by simp, rfl, hpos⟩

/-- C3: a snapshot replaces the whole book: for distinct snapshot prices,
`yes_bids` holds exactly the positive-quantity YES entries, `yes_asks` holds
each positive-quantity NO entry `(p, q)` at price `100 - p`, and `last_seq`
becomes the snapshot sequence; concretely, snapshot yes (50,10) / no (40,5)
yields `yes_bids = [(50,10)]`, `yes_asks = [(60,5)]`. -/
theorem snapshot_replaces_book :
    (∀ (v : LiveView) (snap : OrderbookSnapshot),
      (snap.yes.map OrderBookEntry.price_cents).Nodup →
      (snap.no.map OrderBookEntry.price_cents).Nodup →
      ∃ st, lookupKV snap.market_ticker (handle_snapshot v snap) = some st ∧
        st.last_seq = snap.seq ∧
        (∀ p q, lookupKV p st.yes_bids = some q ↔
          (⟨p, q⟩ : OrderBookEntry) ∈ snap.yes ∧ 0 < q) ∧
        (∀ p q, lookupKV p st.yes_asks = some q ↔
          (⟨100 - p, q⟩ : OrderBookEntry) ∈ snap.no ∧ 0 < q))
    ∧ (((lookupKV "T" (handle_snapshot emptyView exSnap)).getD {}).yes_bids = [(50, 10)]
      ∧ ((lookupKV "T" (handle_snapshot emptyView exSnap)).getD {}).yes_asks = [(60, 5)]
      ∧ ((lookupKV "T" (handle_snapshot emptyView exSnap)).getD {}).last_seq = 7) := by
  refine ⟨?_, by decide⟩
  intro v snap hndYes hndNo
  unfold handle_snapshot
  refine ⟨_, lookupKV_setKV_self _ _ _, ?_, ?_, ?_⟩
  · rw [update_best_bid_ask_last_seq]
  · intro p q
    rw [update_best_bid_ask_yes_bids]
    exact lookup_buildYesBids_iff snap.yes hndYes p q
  · intro p q
    rw [update_best_bid_ask_yes_asks]
    exact lookup_buildYesAsks_iff snap.no hndNo p q

/-- Witness for C3: the general statement applied to the concrete example
snapshot, whose price lists are duplicate-free. -/
theorem snapshot_replaces_book_witness :
    ∃ st, lookupKV "T" (handle_snapshot emptyView exSnap) = some st ∧
      st.last_seq = 7 ∧ (lookupKV 50 st.yes_bids = some 10 ∧ lookupKV 60 st.yes_asks = some 5) := by
  obtain ⟨st, h1, h2, h3, h4⟩ :=
    snapshot_replaces_book.1 emptyView exSnap (by decide) (by decide)
  exact ⟨st, h1, h2, (h3 50 10).mpr (by decide), (h4 60 5).mpr (by decide)⟩

theorem applyBookDelta_nil_pos (price delta : Int) (hpos : 0 < delta) :
    applyBookDelta [] price delta = [(price, delta)] := by
  unfold applyBookDelta
  have h1 : (lookupKV price ([] : Book)).getD 0 + delta = delta := by
    simp [lookupKV]
  rw [h1, if_neg (by omega)]
  rfl

/-- C5: a delta for an instrument with no tracked state is not dropped: a
fresh default state is created and the delta applied to it, so a YES-side
delta of +3 at price 55 yields `yes_bids = [(55, 3)]`, an empty ask side and
the delta's sequence number; concretely so for the example instrument. -/
theorem delta_creates_fresh_state :
    (∀ (v : LiveView) (d : OrderbookDelta),
      lookupKV d.market_ticker v = none → d.side = Side.yes → 0 < d.delta →
      ∃ st, lookupKV d.market_ticker (handle_delta v d) = some st ∧
        st.yes_bids = [(d.price, d.delta)] ∧ st.yes_asks = [] ∧ st.last_seq = d.seq)
    ∧ (∃ st, lookupKV "U" (handle_delta emptyView exDeltaFresh) = some st ∧
        st.yes_bids = [(55, 3)]) := by
  constructor
  · intro v d hmiss hside hpos
    unfold handle_delta
    refine ⟨_, lookupKV_setKV_self _ _ _, ?_, ?_, ?_⟩
    · rw [update_best_bid_ask_yes_bids, if_pos hside]
      show applyBookDelta ((lookupKV d.market_ticker v).getD {}).yes_bids d.price d.delta = _
      rw [hmiss]
      exact applyBookDelta_nil_pos d.price d.delta hpos
    · rw [update_best_bid_ask_yes_asks, if_pos hside]
      show ((lookupKV d.market_ticker v).getD {}).yes_asks = _
      rw [hmiss]
      rfl
    · rw [update_best_bid_ask_last_seq, if_pos hside]
  · exact ⟨_, lookupKV_setKV_self _ _ _, by decide⟩

/-- Witness for C5: the general statement applied to the concrete fresh-delta
example on the empty view. -/
theorem delta_creates_fresh_state_witness :
    ∃ st, lookupKV "U" (handle_delta emptyView exDeltaFresh) = some st ∧
      st.yes_bids = [(55, 3)] ∧ st.yes_asks = [] ∧ st.last_seq = 1 := by
  exact delta_creates_fresh_state.1 emptyView exDeltaFresh (by decide) (by decide) (by decide)

theorem setKV_setKV {α β : Type} [DecidableEq α] (m : List (α × β)) (k : α) (a b : β) :
    setKV (setKV m k a) k b = setKV m k b := by
  induction m with
  | nil => simp [setKV]
  | cons e rest ih =>
    by_cases h1 : e.1 = k
    · simp [setKV, h1]
    · simp [setKV, h1, ih]

/-- C6: a trade event unconditionally overwrites the four `last_trade`
fields of the instrument's state, whatever state the view is in, and the
overwrite is idempotent: processing the same trade twice leaves the view
exactly as processing it once. -/
theorem trade_overwrites_last_trade :
    (∀ (v : LiveView) (t : WsTrade),
      ∃ st, lookupKV t.market_ticker (handle_trade v t) = some st ∧
        st.last_trade_price = some t.yes_price ∧ st.last_trade_size = some t.count ∧
        st.last_trade_taker_side = some t.taker_side ∧ st.last_trade_ts = some t.timestamp)
    ∧ (∀ (v : LiveView) (t : WsTrade),
      handle_trade (handle_trade v t) t = handle_trade v t) := by
  constructor
  · intro v t
    unfold handle_trade
    exact ⟨_, lookupKV_setKV_self _ _ _, rfl, rfl, rfl, rfl⟩
  · intro v t
    unfold handle_trade
    rw [lookupKV_setKV_self, Option.getD_some, setKV_setKV]

/-- C8: `should_retry` is true on 429 with rate-limit retries enabled, true
on any 5xx with server-error retries enabled, and false on every other 4xx
status whatever the policy flags. -/
theorem should_retry_classification :
    ∀ (r : HttpResponse) (p : RetryPolicy),
      (r.status_code = 429 → p.retry_on_rate_limit = true → should_retry r p = true)
      ∧ (500 ≤ r.status_code → p.retry_on_server_error = true → should_retry r p = true)
      ∧ (400 ≤ r.status_code → r.status_code < 500 → r.status_code ≠ 429 →
          should_retry r p = false) := by
  intro r p
  refine ⟨?_, ?_, ?_⟩
  · intro h429 hflag
    simp [should_retry, h429, hflag]
  · intro h5xx hflag
    unfold should_retry
    by_cases hrl : p.retry_on_rate_limit ∧ r.status_code = 429
    · rw [if_pos hrl]
    · rw [if_neg hrl, if_pos ⟨hflag, h5xx⟩]
  · intro h4 h5 hne
    unfold should_retry
    rw [if_neg (fun hh => hne hh.2), if_neg (fun hh => absurd hh.2 (by omega))]

/-- Witness for C8: rate-limited 429, server error 503 and client error 400
under the default policy. -/
theorem should_retry_classification_witness :
    should_retry { status_code := 429 } {} = true
    ∧ should_retry { status_code := 503 } {} = true
    ∧ should_retry { status_code := 400 } {} = false :=
  ⟨(should_retry_classification _ _).1 rfl rfl,
   (should_retry_classification _ _).2.1 (by decide) rfl,
   (should_retry_classification _ _).2.2 (by decide) (by decide) (by decide)⟩

theorem foldl_mul_range (m d0 : ℚ) (n : Nat) :
    (List.range n).foldl (fun dd _ => dd * m) d0 = d0 * m ^ n := by
  induction n with
  | zero => simp
  | succ n ih =>
    rw [List.range_succ, List.foldl_append, ih, pow_succ]
    simp [mul_assoc]

/-- C9: with `jitter_factor = 0` the delay is exactly
`initial_delay * multiplier ^ (attempt - 1)` capped at `max_delay`; in
particular attempts 1, 2, 3 under the default 100 ms / ×2 policy give
exactly 100 ms, 200 ms, 400 ms, whatever the jitter draw would have been. -/
theorem retry_delay_exponential :
    (∀ (jd : ℚ) (p : RetryPolicy) (attempt : Int),
      p.jitter_factor = 0 → 1 ≤ attempt →
      calculate_retry_delay jd attempt p =
        truncTowardZero (min ((p.initial_delay : ℚ) * p.backoff_multiplier ^ (attempt - 1).toNat)
          (p.max_delay : ℚ)))
    ∧ (∀ jd : ℚ, calculate_retry_delay jd 1 zeroJitterPolicy = 100)
    ∧ (∀ jd : ℚ, calculate_retry_delay jd 2 zeroJitterPolicy = 200)
    ∧ (∀ jd : ℚ, calculate_retry_delay jd 3 zeroJitterPolicy = 400) := by
  have hgen : ∀ (jd : ℚ) (p : RetryPolicy) (attempt : Int),
      p.jitter_factor = 0 → 1 ≤ attempt →
      calculate_retry_delay jd attempt p =
        truncTowardZero (min ((p.initial_delay : ℚ) * p.backoff_multiplier ^ (attempt - 1).toNat)
          (p.max_delay : ℚ)) := by
    intro jd p attempt hj _
    unfold calculate_retry_delay
    dsimp only
    rw [foldl_mul_range, if_neg (by rw [hj]; exact lt_irrefl 0)]
  refine ⟨hgen, ?_, ?_, ?_⟩
  · intro jd
    rw [hgen jd zeroJitterPolicy 1 rfl (by decide)]
    norm_num [zeroJitterPolicy, truncTowardZero]
  · intro jd
    rw [hgen jd zeroJitterPolicy 2 rfl (by decide)]
    norm_num [zeroJitterPolicy, truncTowardZero]
  · intro jd
    rw [hgen jd zeroJitterPolicy 3 rfl (by decide),
      show ((3 : Int) - 1).toNat = 2 from rfl]
    norm_num [zeroJitterPolicy, truncTowardZero]

/-- Witness for C9: the general backoff formula applied at attempt 3 with a
(jitter-irrelevant) draw of 1. -/
theorem retry_delay_exponential_witness :
    calculate_retry_delay 1 3 zeroJitterPolicy =
      truncTowardZero (min ((zeroJitterPolicy.initial_delay : ℚ) *
        zeroJitterPolicy.backoff_multiplier ^ ((3 : Int) - 1).toNat)
        (zeroJitterPolicy.max_delay : ℚ)) :=
  retry_delay_exponential.1 1 zeroJitterPolicy 3 rfl (by decide)

/-- C7 counterexample: calling `subscribe_orderbook` while disconnected
(with a non-empty instrument list) fails with `NetworkError`, not with
`InvalidRequest` as claimed. -/
theorem subscribe_orderbook_disconnected_counterexample :
    subscribe_orderbook { connected := false } ["KXBTC-25DEC31"] =
      Except.error { code := ErrorCode.networkError, message := "Not connected" }
    ∧ ErrorCode.networkError ≠ ErrorCode.invalidRequest := by
  exact ⟨rfl, by decide⟩

/-- C7 (amended): while disconnected `subscribe_orderbook` fails with
`NetworkError` (whatever the list); while connected it fails with
`InvalidRequest` exactly on an empty instrument list, and otherwise
succeeds, returning a `SubscriptionId` on the orderbook-delta channel and
queueing the subscribe command. -/
theorem subscribe_orderbook_classification :
    ∀ (st : WsClientState) (tickers : List String),
      (st.connected = false →
        subscribe_orderbook st tickers = Except.error (Error.network "Not connected"))
      ∧ (st.connected = true → tickers = [] →
        subscribe_orderbook st tickers =
          Except.error
            { code := ErrorCode.invalidRequest, message := "market_tickers required" })
      ∧ (st.connected = true → tickers ≠ [] →
        subscribe_orderbook st tickers =
          Except.ok ({ sid := st.next_command_id, channel := Channel.orderbookDelta },
            { st with
                next_command_id := st.next_command_id + 1,
                send_queue := st.send_queue ++
                  [build_subscribe_command st.next_command_id Channel.orderbookDelta
                    tickers] })) := by
  intro st tickers
  refine ⟨?_, ?_, ?_⟩
  · intro hdis
    unfold subscribe_orderbook
    rw [if_pos (by rw [hdis]; exact Bool.false_ne_true)]
  · intro hcon hemp
    unfold subscribe_orderbook
    rw [if_neg (by rw [hcon]; exact fun hh => hh rfl), if_pos (by rw [hemp]; rfl)]
  · intro hcon hne
    unfold subscribe_orderbook
    rw [if_neg (by rw [hcon]; exact fun hh => hh rfl),
      if_neg (by simpa [List.isEmpty_iff] using hne)]

/-- Witness for C7: the three branches at concrete client states. -/
theorem subscribe_orderbook_classification_witness :
    subscribe_orderbook { connected := false } ["KXHIGHNY-25"] =
      Except.error (Error.network "Not connected")
    ∧ subscribe_orderbook { connected := true } [] =
      Except.error { code := ErrorCode.invalidRequest, message := "market_tickers required" }
    ∧ subscribe_orderbook { connected := true } ["KXHIGHNY-25"] =
      Except.ok ({ sid := 1, channel := Channel.orderbookDelta },
        { connected := true
          next_command_id := 2
          send_queue := [build_subscribe_command 1 Channel.orderbookDelta ["KXHIGHNY-25"]] }) :=
  ⟨(subscribe_orderbook_classification _ _).1 rfl,
   (subscribe_orderbook_classification _ _).2.1 rfl rfl,
   (subscribe_orderbook_classification _ _).2.2 rfl (by decide)⟩

/-- C1: for every method, path and timestamp, `sign_with_timestamp` signs
exactly the canonical concatenation of the decimal timestamp, the method
and the path with no separators, and the returned headers carry the
signer's key id, that decimal timestamp string and the base64 encoding of
the RSA-PSS/SHA-256 signature bytes, which verify against the
corresponding public key. -/
theorem sign_with_timestamp_correct :
    ∀ (S : SignerModel) (method path : String) (ts : Int),
      (sign_with_timestamp S method path ts).access_key = S.api_key_id
      ∧ (sign_with_timestamp S method path ts).timestamp = toString ts
      ∧ (sign_with_timestamp S method path ts).signature =
          base64_encode (S.sign (toString ts ++ method ++ path))
      ∧ S.verify (toString ts ++ method ++ path)
          (S.sign (toString ts ++ method ++ path)) = true :=
  fun S _ _ _ => ⟨rfl, rfl, rfl, S.sign_verifies _⟩

theorem wrapI32_zero : wrapI32 0 = 0 := rfl

theorem wrapI32_emod (n : Int) : wrapI32 n % 4294967296 = n % 4294967296 := by
  unfold wrapI32
  dsimp only
  split <;> omega

theorem wrapI32_congr {a b : Int} (h : a % 4294967296 = b % 4294967296) :
    wrapI32 a = wrapI32 b := by
  unfold wrapI32
  rw [h]

theorem wrapI32_of_range (n : Int) (h0 : 0 ≤ n) (h1 : n < 2147483648) :
    wrapI32 n = n := by
  unfold wrapI32
  dsimp only
  split <;> omega

theorem digitAcc_wrap (l : List Char) :
    ∀ a b : Int, a % 4294967296 = b % 4294967296 →
      digitAcc (wrapI32 a) l = wrapI32 (digitAccNoWrap b l) := by
  induction l with
  | nil =>
    intro a b h
    exact wrapI32_congr h
  | cons c rest ih =>
    intro a b h
    by_cases hd : '0' ≤ c ∧ c ≤ '9'
    · simp only [digitAcc, digitAccNoWrap, if_pos hd]
      apply ih
      have hw := wrapI32_emod a
      omega
    · simp only [digitAcc, digitAccNoWrap, if_neg hd]
      exact wrapI32_congr h

theorem extract_int_eq_wrap (json : List Char) (key : String) :
    extract_int json key = wrapI32 (extract_int_ideal json key) := by
  unfold extract_int extract_int_ideal
  rcases h1 : findSub json ('"' :: key.toList ++ ['"']) with _ | pos
  · rfl
  · dsimp only
    rcases h2 : findCharFrom json ':' pos with _ | pos2
    · rfl
    · dsimp only
      exact digitAcc_wrap _ 0 0 rfl

theorem digitAccNoWrap_nonneg (l : List Char) :
    ∀ val : Int, 0 ≤ val → 0 ≤ digitAccNoWrap val l := by
  induction l with
  | nil => intro val h; exact h
  | cons c rest ih =>
    intro val h
    by_cases hd : '0' ≤ c ∧ c ≤ '9'
    · simp only [digitAccNoWrap, if_pos hd]
      apply ih
      have h2 : '0'.toNat ≤ c.toNat := by exact_mod_cast hd.1
      have h3 : '0'.toNat = 48 := rfl
      omega
    · simp only [digitAccNoWrap, if_neg hd]
      exact h

theorem extract_int_ideal_nonneg (json : List Char) (key : String) :
    0 ≤ extract_int_ideal json key := by
  unfold extract_int_ideal
  rcases h1 : findSub json ('"' :: key.toList ++ ['"']) with _ | pos
  · exact le_refl (0 : Int)
  · dsimp only
    rcases h2 : findCharFrom json ':' pos with _ | pos2
    · exact le_refl (0 : Int)
    · dsimp only
      exact digitAccNoWrap_nonneg _ 0 (le_refl (0 : Int))

set_option maxRecDepth 8192 in
/-- C10 (amended): the integer extraction parses only decimal digit
characters — a negative literal such as `"delta":-5` decodes to 0 — and
returns the exact nonnegative digit-run value whenever that value is below
2^31; hence every delivered `OrderbookDelta` whose `price` and `delta`
digit runs fit in int32 has `price ≥ 0` and `delta ≥ 0`. (A digit run
≥ 2^31 overflows the `std::int32_t` accumulator and can surface as a
negative value.) -/
theorem extract_int_nonneg_within_int32 :
    (∀ (json : List Char) (key : String),
      extract_int_ideal json key < 2147483648 →
      extract_int json key = extract_int_ideal json key ∧ 0 ≤ extract_int json key)
    ∧ extract_int exNegFrame "delta" = 0
    ∧ (∀ (json : List Char) (d : OrderbookDelta),
      ws_decode json = some (WsMessage.delta d) →
      extract_int_ideal json "price" < 2147483648 →
      extract_int_ideal json "delta" < 2147483648 →
      0 ≤ d.price ∧ 0 ≤ d.delta) := by
  have hpart1 : ∀ (json : List Char) (key : String),
      extract_int_ideal json key < 2147483648 →
      extract_int json key = extract_int_ideal json key ∧ 0 ≤ extract_int json key := by
    intro json key hlt
    have hnn := extract_int_ideal_nonneg json key
    have heq : extract_int json key = extract_int_ideal json key := by
      rw [extract_int_eq_wrap, wrapI32_of_range _ hnn hlt]
    exact ⟨heq, heq ▸ hnn⟩
  refine ⟨hpart1, by decide, ?_⟩
  intro json d h hp hd
  unfold ws_decode at h
  rcases ht : ws_msg_type json with _ | t
  · rw [ht] at h
    cases h
  · rw [ht] at h
    dsimp only at h
    by_cases h1 : t = "error"
    · rw [if_pos h1] at h
      cases h
    rw [if_neg h1] at h
    by_cases h2 : t = "orderbook_snapshot"
    · rw [if_pos h2] at h
      exact absurd h (by simp)
    rw [if_neg h2] at h
    by_cases h3 : t = "orderbook_delta"
    · rw [if_pos h3] at h
      injection h with h
      injection h with h
      subst h
      exact ⟨(hpart1 json "price" hp).2, (hpart1 json "delta" hd).2⟩
    rw [if_neg h3] at h
    by_cases h4 : t = "trade"
    · rw [if_pos h4] at h
      exact absurd h (by simp)
    rw [if_neg h4] at h
    by_cases h5 : t = "fill"
    · rw [if_pos h5] at h
      exact absurd h (by simp)
    rw [if_neg h5] at h
    by_cases h6 : t = "market_lifecycle"
    · rw [if_pos h6] at h
      exact absurd h (by simp)
    rw [if_neg h6] at h
    cases h

set_option maxRecDepth 8192 in
/-- Witness for C10: the general statements applied to the concrete
negative-literal frame, whose digit runs (50 and the empty run) are below
2^31. -/
theorem extract_int_nonneg_within_int32_witness :
    (extract_int exNegFrame "price" = extract_int_ideal exNegFrame "price"
      ∧ 0 ≤ extract_int exNegFrame "price")
    ∧ (0 ≤ exNegDelta.price ∧ 0 ≤ exNegDelta.delta) :=
  ⟨extract_int_nonneg_within_int32.1 exNegFrame "price" (by decide),
   extract_int_nonneg_within_int32.2.2 exNegFrame exNegDelta (by decide) (by decide) (by decide)⟩

set_option maxRecDepth 8192 in
/-- C10 counterexample: a frame carrying `"delta":2147483650` is delivered
to the message callback as an `OrderbookDelta` with `delta = -2147483646`,
a negative value, refuting the claim for every inbound frame. -/
theorem extract_int_overflow_counterexample :
    ws_decode exOverflowFrame = some (WsMessage.delta exOverflowDelta)
    ∧ exOverflowDelta.delta < 0 := by
  exact ⟨by decide, by decide⟩

end Kalshi
